import Mathlib

/-!
Verification of the HIGHTECH backend's balance-mutation and eligibility logic.

The repository contains three variants of the same Express server:
`server.js` (MongoDB, payment callback reconciling by `txRef`),
`unnamed/part_000` (older MongoDB variant whose GET payment callback credits
by customer email), and `unnamed/part_001` (a MongoDB variant followed by an
in-memory variant holding the subscribe / withdraw / watch-ad / admin-approve
handlers over plain arrays).  The definitions below are shallow embeddings of
those handlers: JS numbers carrying money become `Int`, nullable fields become
`Option`, the in-memory arrays become `List`s, `Array.prototype.find` becomes
`findFirst`, and in-place mutation of the found element becomes `updateFirst`.
Timestamps are milliseconds since the epoch (`Int`), matching `Date.now()` and
`getTime()` arithmetic in the source.
-/

/-- First element of a list satisfying `p` (JS `Array.prototype.find`). -/
def findFirst (p : α → Bool) : List α → Option α
  | [] => none
  | x :: xs => if p x then some x else findFirst p xs

/-- Replace the first element satisfying `p` by `f` of it (JS mutation of the
object returned by `find`). -/
def updateFirst (p : α → Bool) (f : α → α) : List α → List α
  | [] => []
  | x :: xs => if p x then f x :: xs else x :: updateFirst p f xs

/-- JS `String.prototype.toLowerCase()` on the ASCII identifiers and email
addresses this system handles, written over the character list so that it
evaluates inside the kernel. -/
def jsToLower (s : String) : String := String.mk (s.data.map Char.toLower)

/- ---------------- Data model ---------------- -/

/-- Static catalog entry (`PACKAGES` in every variant). -/
structure Package where
  id : Nat
  price : Int
  daily : Int
deriving Repr, DecidableEq

/-- The catalog, identical in all three server variants. -/
def PACKAGES : List Package :=
  [⟨1, 5000, 500⟩, ⟨2, 10000, 1000⟩, ⟨3, 25000, 2500⟩,
   ⟨4, 50000, 5000⟩, ⟨5, 100000, 10000⟩]

/-- `Math.round(price * 0.10)` from the subscribe handlers.  For nonnegative
inputs JS `Math.round` is round-half-up, i.e. `(price + 5) / 10` exactly; on
every catalog price (all multiples of 10) the double-precision computation in
the source agrees with this exact value. -/
def referralBonus (price : Int) : Int := (price + 5) / 10

/-- A user record (`users` array entries / the mongoose `User` schema). -/
structure UserR where
  uid : String
  name : String
  email : String
  password : String
  verified : Bool
  balance : Int
  referralEarnings : Int
  referrals : List String
  referralCode : String
  referredBy : Option String
  packageId : Option Nat
  subscribedAt : Option Int
  lastEarningWithdrawal : Option Int
deriving Repr, DecidableEq

inductive WStatus
  | pending
  | approved
  | rejected
deriving Repr, DecidableEq, BEq

/-- A withdrawal request record (`withdrawals` array entries). -/
structure WithdrawalR where
  wid : String
  userId : String
  wtype : String
  amount : Int
  bank : String
  accountNumber : String
  accountName : String
  status : WStatus
deriving Repr, DecidableEq

/-- Per-(user, day) ad progress (`adsWatched[userId][today]` in part_001). -/
structure AdsEntry where
  count : Nat
  rewarded : Bool
deriving Repr, DecidableEq

/-- One keyed entry of the `adsWatched` nested object, flattened to a
(userId, dayKey) association list.  JS object keys are unique; lookups and
updates below use first-match, which coincides on unique-key lists. -/
structure AdsRec where
  auid : String
  aday : String
  entry : AdsEntry
deriving Repr, DecidableEq

/-- The promo singleton (`promo` object / `Promo` document). -/
structure PromoR where
  limit : Int
  used : Int
deriving Repr, DecidableEq

/-- State of the in-memory server variant (part_001, second half). -/
structure ServerState where
  users : List UserR
  withdrawals : List WithdrawalR
  adsWatched : List AdsRec
  promo : PromoR
deriving Repr, DecidableEq

inductive DStatus
  | pending
  | successful
  | failed
deriving Repr, DecidableEq, BEq

/-- Deposit record as created by the part_000 payment callback. -/
structure Dep000 where
  depId : String
  userId : String
  amount : Int
  txId : String
  txRef : Option String
  status : DStatus
  promoApplied : Bool
deriving Repr, DecidableEq

/-- State touched by the part_000 (Mongo) payment callback. -/
structure State000 where
  users : List UserR
  deposits : List Dep000
  promo : PromoR
deriving Repr, DecidableEq

/-- Gateway verification payload as consumed by part_000's callback:
`verifyData.status`, `verifyData.data.amount`, `verifyData.data.customer`. -/
structure VerifyResp where
  status : String
  amount : Int
  email : String
  name : String
deriving Repr, DecidableEq

/-- Gateway verification payload as consumed by server.js's callback:
`verifyResponse.data.data` with fields `status`, `amount`, `tx_ref`. -/
structure TxData where
  status : String
  amount : Int
  tx_ref : String
deriving Repr, DecidableEq

/-- Deposit record of the server.js variant (one per payment attempt,
created in `pending` status by the deposit-init handler). -/
structure DepS where
  userId : String
  amount : Int
  txRef : String
  status : DStatus
  gatewayResponse : Option TxData
deriving Repr, DecidableEq

/-- State touched by the server.js payment callback. -/
structure StateS where
  users : List UserR
  deposits : List DepS
deriving Repr, DecidableEq

inductive COut
  | success
  | failed
deriving Repr, DecidableEq

/- ---------------- Projections ---------------- -/

/-- `findUserById` over the in-memory `users` array. -/
def findU (st : ServerState) (uid : String) : Option UserR :=
  findFirst (fun u => u.uid == uid) st.users

/-- Balance of the (first) user with id `uid`, defaulting to 0. -/
def userBalance (uid : String) (st : ServerState) : Int :=
  ((findU st uid).map (fun u => u.balance)).getD 0

/-- Daily reward of the package the user with id `uid` is subscribed to
(0 when the user, their package id, or the catalog entry is absent). -/
def dailyOf (uid : String) (st : ServerState) : Int :=
  match ((findU st uid).map (fun u => u.packageId)).getD none with
  | none => 0
  | some pid =>
    match findFirst (fun p => p.id == pid) PACKAGES with
    | none => 0
    | some pkg => pkg.daily

/-- `adsWatched[uid][day]` lookup. -/
def lookupAds (l : List AdsRec) (uid day : String) : Option AdsEntry :=
  (findFirst (fun r => r.auid == uid && r.aday == day) l).map (fun r => r.entry)

/-- In-place overwrite of `adsWatched[uid][day]`. -/
def setAds (l : List AdsRec) (uid day : String) (v : AdsEntry) : List AdsRec :=
  updateFirst (fun r => r.auid == uid && r.aday == day)
    (fun r => { r with entry := v }) l

/-- The `if (!adsWatched[userId][today]) ... = { count: 0, rewarded: false }`
initialisation from the watch-ad handler. -/
def ensureAds (l : List AdsRec) (uid day : String) : List AdsRec :=
  match lookupAds l uid day with
  | some _ => l
  | none => l ++ [⟨uid, day, ⟨0, false⟩⟩]

/-- Whether today's reward has already been granted for (uid, day). -/
def rewardedFlag (uid day : String) (st : ServerState) : Bool :=
  ((lookupAds st.adsWatched uid day).map (fun e => e.rewarded)).getD false

/- ---------------- Operations (in-memory variant, part_001) ---------------- -/

inductive SignupResult
  | missing
  | duplicate
  | ok
deriving Repr, DecidableEq

/-- POST /api/auth/signup (part_001 lines 614-660; server.js agrees).
`newId` and `newCode` stand for the `"u_" + Date.now()` id and the randomly
generated referral code. -/
def signup (name email password : String) (referralCode : Option String)
    (newId newCode : String) (st : ServerState) : SignupResult × ServerState :=
  if name == "" || email == "" || password == "" then (.missing, st)
  else if (findFirst (fun u => jsToLower u.email == jsToLower email) st.users).isSome then
    (.duplicate, st)
  else
    let rb : Option String × List UserR :=
      match referralCode with
      | none => (none, st.users)
      | some rc =>
        if rc == "" then (none, st.users)
        else
          match findFirst (fun u => u.referralCode == rc) st.users with
          | some _ =>
            (some rc, updateFirst (fun u => u.referralCode == rc)
              (fun u => { u with referrals := u.referrals ++ [email] }) st.users)
          | none => (none, st.users)
    let nu : UserR :=
      { uid := newId, name := name, email := jsToLower email, password := password,
        verified := true, balance := 0, referralEarnings := 0, referrals := [],
        referralCode := newCode, referredBy := rb.1, packageId := none,
        subscribedAt := none, lastEarningWithdrawal := none }
    (.ok, { st with users := rb.2 ++ [nu] })

inductive SubResult
  | userNotFound
  | invalidPackage
  | insufficient
  | ok
deriving Repr, DecidableEq

/-- The referral-bonus block duplicated by the subscribe handlers and the
part_000 callback: `if (user.referredBy) { const ref = find by referralCode;
if (ref) ref.referralEarnings = (ref.referralEarnings || 0) + bonus; }`.
A JS truthiness check makes both a null and an empty `referredBy` skip the
block. -/
def creditReferrer (referredBy : Option String) (bonus : Int)
    (users : List UserR) : List UserR :=
  match referredBy with
  | none => users
  | some code =>
    if code == "" then users
    else if (findFirst (fun u => u.referralCode == code) users).isSome then
      updateFirst (fun u => u.referralCode == code)
        (fun u => { u with referralEarnings := u.referralEarnings + bonus })
        users
    else users

/-- POST /api/subscribe (part_001 lines 695-719; server.js lines 230-257
agrees).  `now` is `Date.now()` at the call. -/
def subscribe (uid : String) (pid : Nat) (now : Int) (st : ServerState) :
    SubResult × ServerState :=
  match findFirst (fun u => u.uid == uid) st.users with
  | none => (.userNotFound, st)
  | some user =>
    match findFirst (fun p => p.id == pid) PACKAGES with
    | none => (.invalidPackage, st)
    | some pkg =>
      if user.balance < pkg.price then (.insufficient, st)
      else
        let users1 := updateFirst (fun u => u.uid == uid)
          (fun u => { u with balance := u.balance - pkg.price,
                             packageId := some pkg.id,
                             subscribedAt := some now }) st.users
        (.ok, { st with users :=
          creditReferrer user.referredBy (referralBonus pkg.price) users1 })

inductive WResult
  | userNotFound
  | invalidAmount
  | referralMin
  | referralInsufficient
  | mustSubscribe
  | cooldown
  | insufficientBalance
  | invalidType
  | ok
deriving Repr, DecidableEq

/-- Seven days in milliseconds; `daysSince < 7` in the source divides by
`1000*60*60*24`, which over exact arithmetic is `now - last < sevenDaysMs`. -/
def sevenDaysMs : Int := 7 * 86400000

/-- The reference instant of the 7-day rule in the withdraw handler:
`const last = user.lastEarningWithdrawal ? new Date(user.lastEarningWithdrawal)
: allowFrom` where `allowFrom` is `subscribedAt` (or null). -/
def effLast (u : UserR) : Option Int :=
  match u.lastEarningWithdrawal with
  | some t => some t
  | none => u.subscribedAt

/-- POST /api/withdraw (part_001 lines 910-952).  `newWid` stands for the
generated uuid of the created request, `now` for `Date.now()`. -/
def withdraw (uid wtype : String) (amount : Int)
    (bank accountNumber accountName : String) (now : Int) (newWid : String)
    (st : ServerState) : WResult × ServerState :=
  match findFirst (fun u => u.uid == uid) st.users with
  | none => (.userNotFound, st)
  | some user =>
    if amount ≤ 0 then (.invalidAmount, st)
    else if wtype == "referral" then
      if user.referralEarnings < 5000 then (.referralMin, st)
      else if user.referralEarnings < amount then (.referralInsufficient, st)
      else
        let users1 := updateFirst (fun u => u.uid == uid)
          (fun u => { u with referralEarnings := u.referralEarnings - amount })
          st.users
        let w : WithdrawalR :=
          ⟨newWid, user.uid, wtype, amount, bank, accountNumber, accountName,
           .pending⟩
        (.ok, { st with users := users1, withdrawals := st.withdrawals ++ [w] })
    else if wtype == "earning" then
      match effLast user with
      | none => (.mustSubscribe, st)
      | some t =>
        if now - t < sevenDaysMs then (.cooldown, st)
        else if user.balance < amount then (.insufficientBalance, st)
        else
          let users1 := updateFirst (fun u => u.uid == uid)
            (fun u => { u with balance := u.balance - amount,
                               lastEarningWithdrawal := some now }) st.users
          let w : WithdrawalR :=
            ⟨newWid, user.uid, wtype, amount, bank, accountNumber, accountName,
             .pending⟩
          (.ok, { st with users := users1, withdrawals := st.withdrawals ++ [w] })
    else (.invalidType, st)

inductive AResult
  | notFound
  | ok
deriving Repr, DecidableEq

/-- POST /api/admin/withdrawals/:id/approve (part_001 lines 962-969). -/
def approveWithdrawal (wid : String) (st : ServerState) : AResult × ServerState :=
  match findFirst (fun w => w.wid == wid) st.withdrawals with
  | none => (.notFound, st)
  | some _ =>
    let ws := updateFirst (fun w => w.wid == wid)
      (fun w => { w with status := .approved }) st.withdrawals
    (.ok, { st with withdrawals := ws })

inductive AdResult
  | missingUser
  | userNotFound
  | noPackage
  | alreadyRewarded
  | limitReached
  | watched
deriving Repr, DecidableEq

/-- POST /api/watch-ad (part_001 lines 1074-1127).  `day` is
`new Date().toISOString().slice(0, 10)` at the call.  The entry consulted
after the JS initialisation equals the pre-existing entry when present and
`⟨0, false⟩` otherwise, i.e. `(lookupAds ...).getD ⟨0, false⟩`. -/
def watchAd (uid day : String) (st : ServerState) : AdResult × ServerState :=
  if uid == "" then (.missingUser, st)
  else
    match findFirst (fun u => u.uid == uid) st.users with
    | none => (.userNotFound, st)
    | some user =>
      match user.packageId with
      | none => (.noPackage, st)
      | some pid =>
        let ads0 := ensureAds st.adsWatched uid day
        let e := (lookupAds st.adsWatched uid day).getD ⟨0, false⟩
        if e.rewarded then (.alreadyRewarded, { st with adsWatched := ads0 })
        else if 5 ≤ e.count then (.limitReached, { st with adsWatched := ads0 })
        else
          let n := e.count + 1
          if n == 5 then
            match findFirst (fun p => p.id == pid) PACKAGES with
            | some pkg =>
              (.watched, { st with
                adsWatched := setAds ads0 uid day ⟨n, true⟩,
                users := updateFirst (fun u => u.uid == uid)
                  (fun u => { u with balance := u.balance + pkg.daily })
                  st.users })
            | none => (.watched, { st with adsWatched := setAds ads0 uid day ⟨n, false⟩ })
          else (.watched, { st with adsWatched := setAds ads0 uid day ⟨n, false⟩ })

/-- Iterated watch-ad calls for one (user, day) pair. -/
def watchAdIter (uid day : String) : Nat → ServerState → ServerState
  | 0, st => st
  | n + 1, st => watchAdIter uid day n (watchAd uid day st).2

/- ---------------- Promo counter ---------------- -/

/-- The promo consumption step inlined in both payment callbacks
(part_001 lines 807-812, part_000 lines 338-344). -/
def tryConsume (p : PromoR) : Bool × PromoR :=
  if p.used < p.limit then (true, { p with used := p.used + 1 })
  else (false, p)

/-- Iterated promo consumption. -/
def tryConsumeIter : Nat → PromoR → PromoR
  | 0, p => p
  | n + 1, p => tryConsumeIter n (tryConsume p).2

/- ---------------- Payment callbacks ---------------- -/

/-- A user auto-provisioned by the part_000 callback at first deposit. -/
def freshUser (nid email name code : String) : UserR :=
  { uid := nid, name := name, email := email, password := "", verified := true,
    balance := 0, referralEarnings := 0, referrals := [], referralCode := code,
    referredBy := none, packageId := none, subscribedAt := none,
    lastEarningWithdrawal := none }

/-- GET /api/payment/callback of part_000 (lines 288-362): verifies with the
gateway, finds or creates the user by customer email, credits the amount,
pays a referral bonus, consumes promo capacity, and appends a deposit record
already in `successful` status.  `verify` is the gateway verification
response; `newUserId`, `newCode`, `newDepId` stand for the generated ids. -/
def callback000 (status transaction_id : String) (tx_ref : Option String)
    (verify : Option VerifyResp) (newUserId newCode newDepId : String)
    (st : State000) : String × State000 :=
  if status != "successful" then ("cancelled", st)
  else
    match verify with
    | none => ("failed", st)
    | some v =>
      if v.status != "success" then ("failed", st)
      else
        let email := jsToLower v.email
        let pair : UserR × List UserR :=
          match findFirst (fun u => u.email == email) st.users with
          | some u => (u, st.users)
          | none =>
            let nu := freshUser newUserId email v.name newCode
            (nu, st.users ++ [nu])
        let users1 := updateFirst (fun u => u.email == email)
          (fun u => { u with balance := u.balance + v.amount }) pair.2
        let users2 := creditReferrer pair.1.referredBy (referralBonus v.amount) users1
        let pr := tryConsume st.promo
        let dep : Dep000 :=
          ⟨newDepId, pair.1.uid, v.amount, transaction_id, tx_ref,
           .successful, pr.1⟩
        ("success", ⟨users2, st.deposits ++ [dep], pr.2⟩)

/-- POST /api/payment/callback of server.js (lines 344-401; part_001 lines
369-411 agrees): verifies with the gateway, reconciles the deposit found by
`txRef`, returns success idempotently when it is already `successful`,
checks the amount, then marks it successful and credits the user. -/
def callbackS (transaction_id tx_ref : Option String) (status : String)
    (verify : Option TxData) (st : StateS) : COut × StateS :=
  match transaction_id with
  | none => (.failed, st)
  | some tid =>
    if tid == "" || status != "successful" then (.failed, st)
    else
      match verify with
      | none => (.failed, st)
      | some data =>
        if data.status != "successful" then (.failed, st)
        else
          let key :=
            match tx_ref with
            | some r => if r == "" then data.tx_ref else r
            | none => data.tx_ref
          match findFirst (fun d => d.txRef == key) st.deposits with
          | none => (.failed, st)
          | some dep =>
            if dep.status == DStatus.successful then (.success, st)
            else if dep.amount != data.amount then (.failed, st)
            else
              let deposits1 := updateFirst (fun d => d.txRef == key)
                (fun d => { d with status := DStatus.successful,
                                   gatewayResponse := some data }) st.deposits
              let users1 :=
                match findFirst (fun u => u.uid == dep.userId) st.users with
                | some _ => updateFirst (fun u => u.uid == dep.userId)
                    (fun u => { u with balance := u.balance + data.amount })
                    st.users
                | none => st.users
              (.success, ⟨users1, deposits1⟩)

/- ---------------- Generic list lemmas ---------------- -/

theorem findFirst_updateFirst_self (p : α → Bool) (f : α → α) (l : List α)
    (x : α) (hx : findFirst p l = some x) (hf : p (f x) = true) :
    findFirst p (updateFirst p f l) = some (f x) := by
  induction l with
  | nil => simp [findFirst] at hx
  | cons a as ih =>
    by_cases hpa : p a
    · simp only [findFirst, hpa, if_pos] at hx
      cases hx
      simp [updateFirst, hpa, findFirst, hf]
    · simp only [findFirst, hpa, if_neg, Bool.false_eq_true, if_false] at hx
      simp [updateFirst, hpa, findFirst, ih hx]

theorem findFirst_updateFirst_map (p q : α → Bool) (g : α → α) (π : α → β)
    (l : List α) (hq : ∀ x, p (g x) = p x) (hπ : ∀ x, π (g x) = π x) :
    (findFirst p (updateFirst q g l)).map π = (findFirst p l).map π := by
  induction l with
  | nil => rfl
  | cons a as ih =>
    by_cases hqa : q a
    · by_cases hpa : p a
      · simp [updateFirst, hqa, findFirst, hq, hpa, hπ]
      · simp [updateFirst, hqa, findFirst, hq, hpa]
    · by_cases hpa : p a
      · simp [updateFirst, hqa, findFirst, hpa]
      · simp [updateFirst, hqa, findFirst, hpa, ih]

theorem map_updateFirst (q : α → Bool) (g : α → α) (π : α → β) (l : List α)
    (hπ : ∀ x, π (g x) = π x) :
    (updateFirst q g l).map π = l.map π := by
  induction l with
  | nil => rfl
  | cons a as ih =>
    by_cases hqa : q a
    · simp [updateFirst, hqa, hπ]
    · simp [updateFirst, hqa, ih]

theorem mem_updateFirst_of_neg (q : α → Bool) (g : α → α) (l : List α)
    (x : α) (hx : x ∈ l) (hqx : q x = false) : x ∈ updateFirst q g l := by
  induction l with
  | nil => cases hx
  | cons a as ih =>
    by_cases hqa : q a
    · cases hx with
      | head => rw [hqa] at hqx; cases hqx
      | tail _ h =>
        simp only [updateFirst, hqa, if_pos, List.mem_cons]
        exact Or.inr h
    · cases hx with
      | head => simp [updateFirst, hqa]
      | tail _ h => simp [updateFirst, hqa, ih h]

theorem findFirst_append (p : α → Bool) (l₁ l₂ : List α) :
    findFirst p (l₁ ++ l₂) =
      match findFirst p l₁ with
      | some x => some x
      | none => findFirst p l₂ := by
  induction l₁ with
  | nil => simp [findFirst]
  | cons a as ih =>
    by_cases hpa : p a
    · simp [findFirst, hpa]
    · simp [findFirst, hpa, ih]

theorem findFirst_some (p : α → Bool) (l : List α) (x : α)
    (h : findFirst p l = some x) : p x = true := by
  induction l with
  | nil => simp [findFirst] at h
  | cons a as ih =>
    by_cases hpa : p a
    · simp only [findFirst, hpa, if_pos] at h
      cases h
      exact hpa
    · simp only [findFirst, hpa, Bool.false_eq_true, if_false] at h
      exact ih h

/- ---------------- Ads-tracking lemmas ---------------- -/

theorem ensureAds_of_isSome (l : List AdsRec) (uid day : String)
    (h : (lookupAds l uid day).isSome = true) : ensureAds l uid day = l := by
  unfold ensureAds
  cases hl : lookupAds l uid day with
  | some e => rfl
  | none => rw [hl] at h; cases h

theorem lookupAds_ensureAds (l : List AdsRec) (uid day : String) :
    lookupAds (ensureAds l uid day) uid day =
      some ((lookupAds l uid day).getD ⟨0, false⟩) := by
  cases hl : lookupAds l uid day with
  | some e => simp [ensureAds, hl]
  | none =>
    have hf : findFirst (fun r => r.auid == uid && r.aday == day) l = none := by
      unfold lookupAds at hl
      exact Option.map_eq_none'.mp hl
    simp [ensureAds, hl, lookupAds, findFirst_append, hf, findFirst]

theorem lookupAds_setAds (l : List AdsRec) (uid day : String) (v : AdsEntry)
    (h : (lookupAds l uid day).isSome = true) :
    lookupAds (setAds l uid day v) uid day = some v := by
  obtain ⟨e, he⟩ := Option.isSome_iff_exists.mp h
  obtain ⟨r, hr, _⟩ := Option.map_eq_some'.mp he
  have hpr := findFirst_some _ _ _ hr
  unfold lookupAds setAds
  rw [findFirst_updateFirst_self _ _ _ _ hr hpr]
  rfl

/- ---------------- creditReferrer lemmas ---------------- -/

theorem findFirst_creditReferrer_map (p : UserR → Bool) (π : UserR → β)
    (rb : Option String) (b : Int) (l : List UserR)
    (hp : ∀ x : UserR,
      p { x with referralEarnings := x.referralEarnings + b } = p x)
    (hπ : ∀ x : UserR,
      π { x with referralEarnings := x.referralEarnings + b } = π x) :
    (findFirst p (creditReferrer rb b l)).map π = (findFirst p l).map π := by
  unfold creditReferrer
  cases rb with
  | none => rfl
  | some code =>
    by_cases hc : (code == "") = true
    · simp [hc]
    · by_cases hr : (findFirst (fun u => u.referralCode == code) l).isSome = true
      · simp only [hc, Bool.false_eq_true, if_false, hr, if_pos]
        exact findFirst_updateFirst_map p (fun u => u.referralCode == code) _ π l hp hπ
      · simp [hc, hr]

theorem creditReferrer_none (b : Int) (l : List UserR) :
    creditReferrer none b l = l := rfl

theorem creditReferrer_unresolved (code : String) (b : Int) (l : List UserR)
    (h : findFirst (fun u => u.referralCode == code) l = none) :
    creditReferrer (some code) b l = l := by
  unfold creditReferrer
  by_cases hc : (code == "") = true
  · simp [hc]
  · simp [hc, h]

theorem creditReferrer_resolved (code : String) (b : Int) (l : List UserR)
    (r : UserR) (hc : (code == "") = false)
    (hr : findFirst (fun u => u.referralCode == code) l = some r) :
    findFirst (fun u => u.referralCode == code) (creditReferrer (some code) b l) =
      some { r with referralEarnings := r.referralEarnings + b } := by
  have hpr : (r.referralCode == code) = true :=
    findFirst_some (fun u => u.referralCode == code) l r hr
  unfold creditReferrer
  simp only [hc, Bool.false_eq_true, if_false, hr, Option.isSome_some, if_pos]
  exact findFirst_updateFirst_self _ _ _ _ hr hpr

/- ---------------- Concrete fixtures ---------------- -/

/-- A subscribed user: referred by Bob, 10000 referral earnings, re-subscribed
on day 10 (ms 864000000) after a last earning withdrawal on day 5. -/
def uAda : UserR :=
  { uid := "u1", name := "Ada", email := "ada@x.y", password := "pw",
    verified := true, balance := 20000, referralEarnings := 10000,
    referrals := ["eve@x.y"], referralCode := "ADA1", referredBy := some "BOB1",
    packageId := some 1, subscribedAt := some 864000000,
    lastEarningWithdrawal := some 432000000 }

/-- Ada's referrer. -/
def uBob : UserR :=
  { uid := "u2", name := "Bob", email := "bob@x.y", password := "pw",
    verified := true, balance := 7000, referralEarnings := 100,
    referrals := ["ada@x.y"], referralCode := "BOB1", referredBy := none,
    packageId := none, subscribedAt := none, lastEarningWithdrawal := none }

/-- A user with exactly 5000 referral earnings and an unresolvable
`referredBy` code. -/
def uEve : UserR :=
  { uid := "u3", name := "Eve", email := "eve@x.y", password := "pw",
    verified := true, balance := 5000, referralEarnings := 5000,
    referrals := [], referralCode := "EVE1", referredBy := some "NOPE",
    packageId := some 1, subscribedAt := some 0,
    lastEarningWithdrawal := none }

/-- Base in-memory state used by the concrete evaluations below. -/
def stBase : ServerState :=
  { users := [uAda, uBob, uEve],
    withdrawals := [⟨"w0", "u1", "referral", 5000, "GTB", "0123", "Ada A",
                     WStatus.pending⟩],
    adsWatched := [⟨"u1", "2026-02-03", ⟨5, true⟩⟩],
    promo := ⟨300, 0⟩ }

/- ---------------- C3 ---------------- -/

/-- C3: a successful subscribe debits exactly `package.price` from the user's
balance and sets `packageId` and `subscribedAt`; when `balance < price` it
fails with the insufficient-balance error and the whole state (hence balance,
`packageId` and `subscribedAt`) is unchanged. -/
theorem subscribe_exact_debit (uid : String) (pid : Nat) (now : Int)
    (st : ServerState) (u : UserR) (pkg : Package)
    (hu : findFirst (fun x => x.uid == uid) st.users = some u)
    (hp : findFirst (fun p => p.id == pid) PACKAGES = some pkg) :
    (u.balance < pkg.price →
      subscribe uid pid now st = (SubResult.insufficient, st)) ∧
    (pkg.price ≤ u.balance →
      (subscribe uid pid now st).1 = SubResult.ok ∧
      (findFirst (fun x => x.uid == uid) (subscribe uid pid now st).2.users).map
          (fun x => (x.balance, x.packageId, x.subscribedAt)) =
        some (u.balance - pkg.price, some pkg.id, some now)) := by
  have hpu : (u.uid == uid) = true :=
    findFirst_some (fun x => x.uid == uid) st.users u hu
  constructor
  · intro hlt
    simp only [subscribe, hu, hp, if_pos hlt]
  · intro hle
    have hnlt : ¬ u.balance < pkg.price := not_lt.mpr hle
    have h1 :
        findFirst (fun x => x.uid == uid)
          (updateFirst (fun x => x.uid == uid)
            (fun x => { x with balance := x.balance - pkg.price,
                               packageId := some pkg.id,
                               subscribedAt := some now }) st.users) =
          some { u with balance := u.balance - pkg.price,
                        packageId := some pkg.id, subscribedAt := some now } :=
      findFirst_updateFirst_self _ _ _ _ hu hpu
    have h2 := findFirst_creditReferrer_map
      (fun x => x.uid == uid)
      (fun x => (x.balance, x.packageId, x.subscribedAt))
      u.referredBy (referralBonus pkg.price)
      (updateFirst (fun x => x.uid == uid)
        (fun x => { x with balance := x.balance - pkg.price,
                           packageId := some pkg.id,
                           subscribedAt := some now }) st.users)
      (fun x => rfl) (fun x => rfl)
    simp only [subscribe, hu, hp, if_neg hnlt]
    exact ⟨by trivial, by rw [h2, h1]; rfl⟩

/-- C3 witness: Ada (balance 20000) subscribes to package 2 (price 10000):
result is ok and her record becomes (10000, package 2, the call instant). -/
theorem subscribe_exact_debit_witness :
    (10000 : Int) ≤ uAda.balance ∧
    ((subscribe "u1" 2 999 stBase).1 = SubResult.ok ∧
      (findFirst (fun x => x.uid == "u1") (subscribe "u1" 2 999 stBase).2.users).map
          (fun x => (x.balance, x.packageId, x.subscribedAt)) =
        some (uAda.balance - (10000 : Int), some 2, some 999)) :=
  ⟨by decide,
   (subscribe_exact_debit "u1" 2 999 stBase uAda ⟨2, 10000, 1000⟩
     (by decide) (by decide)).2 (by decide)⟩

/- ---------------- C4 ---------------- -/

/-- C4 counterexample: Ada has `referralEarnings = 10000` and requests a
referral withdrawal of 100, far below 5000.  The claim says any amount below
5000 must fail, yet the handler succeeds and debits the earnings to 9900:
its 5000 floor is applied to `referralEarnings`, not to the amount. -/
theorem withdraw_referral_small_amount_succeeds :
    (withdraw "u1" "referral" 100 "GTB" "0123" "Ada A" 0 "w1" stBase).1 =
      WResult.ok ∧
    (findFirst (fun x => x.uid == "u1")
        (withdraw "u1" "referral" 100 "GTB" "0123" "Ada A" 0 "w1" stBase).2.users).map
      (fun x => x.referralEarnings) = some 9900 := by
  constructor
  · rfl
  · rfl

/-- C4 (amended): a referral withdrawal requires
`referralEarnings ≥ max(amount, 5000)`: it fails whenever
`referralEarnings < 5000` (whatever the amount) or `amount >
referralEarnings`, leaving the state unchanged; otherwise it succeeds,
debits `referralEarnings` by the amount (so a request of exactly 5000 with
exactly 5000 available zeroes it) and enqueues a pending withdrawal record
for that amount. -/
theorem withdraw_referral_floor (uid : String) (amt : Int)
    (bank acct acctName : String) (now : Int) (wid : String)
    (st : ServerState) (u : UserR)
    (hu : findFirst (fun x => x.uid == uid) st.users = some u)
    (hpos : 0 < amt) :
    (u.referralEarnings < 5000 →
      withdraw uid "referral" amt bank acct acctName now wid st =
        (WResult.referralMin, st)) ∧
    (5000 ≤ u.referralEarnings → u.referralEarnings < amt →
      withdraw uid "referral" amt bank acct acctName now wid st =
        (WResult.referralInsufficient, st)) ∧
    (5000 ≤ u.referralEarnings → amt ≤ u.referralEarnings →
      (withdraw uid "referral" amt bank acct acctName now wid st).1 =
        WResult.ok ∧
      (findFirst (fun x => x.uid == uid)
          (withdraw uid "referral" amt bank acct acctName now wid st).2.users).map
        (fun x => x.referralEarnings) = some (u.referralEarnings - amt) ∧
      (withdraw uid "referral" amt bank acct acctName now wid st).2.withdrawals =
        st.withdrawals ++
          [⟨wid, u.uid, "referral", amt, bank, acct, acctName, WStatus.pending⟩]) := by
  have hpu : (u.uid == uid) = true :=
    findFirst_some (fun x => x.uid == uid) st.users u hu
  have hna : ¬ amt ≤ 0 := not_le.mpr hpos
  refine ⟨?_, ?_, ?_⟩
  · intro hlt
    simp only [withdraw, hu, if_neg hna, if_pos hlt]
    rfl
  · intro hge hlt
    have h1 : ¬ u.referralEarnings < 5000 := not_lt.mpr hge
    simp only [withdraw, hu, if_neg hna, if_neg h1, if_pos hlt]
    rfl
  · intro hge hle
    have h1 : ¬ u.referralEarnings < 5000 := not_lt.mpr hge
    have h2 : ¬ u.referralEarnings < amt := not_lt.mpr hle
    have h3 :
        findFirst (fun x => x.uid == uid)
          (updateFirst (fun x => x.uid == uid)
            (fun x => { x with referralEarnings := x.referralEarnings - amt })
            st.users) =
          some { u with referralEarnings := u.referralEarnings - amt } :=
      findFirst_updateFirst_self _ _ _ _ hu hpu
    have hw : withdraw uid "referral" amt bank acct acctName now wid st =
        (WResult.ok,
         { st with
            users := updateFirst (fun x => x.uid == uid)
              (fun x => { x with referralEarnings := x.referralEarnings - amt })
              st.users,
            withdrawals := st.withdrawals ++
              [⟨wid, u.uid, "referral", amt, bank, acct, acctName,
                WStatus.pending⟩] }) := by
      simp [withdraw, hu, if_neg hna, if_neg h1, if_neg h2]
    refine ⟨?_, ?_, ?_⟩
    · simp only [hw]
    · simp only [hw]
      rw [h3]
      rfl
    · simp only [hw]

/-- C4 witness: Eve has exactly 5000 referral earnings and requests exactly
5000: the request succeeds, zeroes her earnings and enqueues a pending
record. -/
theorem withdraw_referral_floor_witness :
    (0 : Int) < 5000 ∧ (5000 : Int) ≤ uEve.referralEarnings ∧
    ((withdraw "u3" "referral" 5000 "UBA" "0456" "Eve E" 7 "w9" stBase).1 =
        WResult.ok ∧
      (findFirst (fun x => x.uid == "u3")
          (withdraw "u3" "referral" 5000 "UBA" "0456" "Eve E" 7 "w9" stBase).2.users).map
        (fun x => x.referralEarnings) = some (uEve.referralEarnings - 5000) ∧
      (withdraw "u3" "referral" 5000 "UBA" "0456" "Eve E" 7 "w9" stBase).2.withdrawals =
        stBase.withdrawals ++
          [⟨"w9", uEve.uid, "referral", 5000, "UBA", "0456", "Eve E",
            WStatus.pending⟩]) :=
  ⟨by decide, by decide,
   (withdraw_referral_floor "u3" 5000 "UBA" "0456" "Eve E" 7 "w9" stBase uEve
       (by decide) (by decide)).2.2 (by decide) (by decide)⟩

/- ---------------- C5 ---------------- -/

/-- C5 counterexample: Ada re-subscribed on day 10 (ms 864000000) after her
last earning withdrawal on day 5 (ms 432000000).  On day 13 only 3 days have
elapsed since the later of the two instants (her subscription), so the claim
demands a cooldown failure — yet the handler measures from
`lastEarningWithdrawal` alone (8 days) and lets the withdrawal succeed. -/
theorem withdraw_earning_cooldown_uses_last_only :
    (1123200000 - 864000000 : Int) < sevenDaysMs ∧
    uAda.subscribedAt = some 864000000 ∧
    uAda.lastEarningWithdrawal = some 432000000 ∧
    (withdraw "u1" "earning" 1000 "GTB" "0123" "Ada A" 1123200000 "w2" stBase).1 =
      WResult.ok := by
  refine ⟨by decide, rfl, rfl, rfl⟩

/-- C5 (amended): the 7-day cooldown for an earning withdrawal is measured
from `lastEarningWithdrawal` when set, and only otherwise from
`subscribedAt` (not from the later of the two).  Strictly less than 7 days
after that instant the request fails with the cooldown error and the state
is unchanged; at exactly 7 days or more it passes the cooldown check
(boundary inclusive), and — when `balance ≥ amount` — succeeds, debits the
balance by the amount, sets `lastEarningWithdrawal = now` and enqueues a
pending withdrawal record. -/
theorem withdraw_earning_cooldown (uid : String) (amt : Int)
    (bank acct acctName : String) (now : Int) (wid : String)
    (st : ServerState) (u : UserR) (t : Int)
    (hu : findFirst (fun x => x.uid == uid) st.users = some u)
    (hpos : 0 < amt) (ht : effLast u = some t) :
    (now - t < sevenDaysMs →
      withdraw uid "earning" amt bank acct acctName now wid st =
        (WResult.cooldown, st)) ∧
    (sevenDaysMs ≤ now - t → u.balance < amt →
      withdraw uid "earning" amt bank acct acctName now wid st =
        (WResult.insufficientBalance, st)) ∧
    (sevenDaysMs ≤ now - t → amt ≤ u.balance →
      (withdraw uid "earning" amt bank acct acctName now wid st).1 =
        WResult.ok ∧
      (findFirst (fun x => x.uid == uid)
          (withdraw uid "earning" amt bank acct acctName now wid st).2.users).map
        (fun x => (x.balance, x.lastEarningWithdrawal)) =
        some (u.balance - amt, some now) ∧
      (withdraw uid "earning" amt bank acct acctName now wid st).2.withdrawals =
        st.withdrawals ++
          [⟨wid, u.uid, "earning", amt, bank, acct, acctName,
            WStatus.pending⟩]) := by
  have hpu : (u.uid == uid) = true :=
    findFirst_some (fun x => x.uid == uid) st.users u hu
  have hna : ¬ amt ≤ 0 := not_le.mpr hpos
  refine ⟨?_, ?_, ?_⟩
  · intro hcool
    simp [withdraw, hu, if_neg hna, ht, if_pos hcool]
  · intro hpass hbal
    have h1 : ¬ now - t < sevenDaysMs := not_lt.mpr hpass
    simp [withdraw, hu, if_neg hna, ht, if_neg h1, if_pos hbal]
  · intro hpass hbal
    have h1 : ¬ now - t < sevenDaysMs := not_lt.mpr hpass
    have h2 : ¬ u.balance < amt := not_lt.mpr hbal
    have h3 :
        findFirst (fun x => x.uid == uid)
          (updateFirst (fun x => x.uid == uid)
            (fun x => { x with balance := x.balance - amt,
                               lastEarningWithdrawal := some now })
            st.users) =
          some { u with balance := u.balance - amt,
                        lastEarningWithdrawal := some now } :=
      findFirst_updateFirst_self _ _ _ _ hu hpu
    have hw : withdraw uid "earning" amt bank acct acctName now wid st =
        (WResult.ok,
         { st with
            users := updateFirst (fun x => x.uid == uid)
              (fun x => { x with balance := x.balance - amt,
                                 lastEarningWithdrawal := some now })
              st.users,
            withdrawals := st.withdrawals ++
              [⟨wid, u.uid, "earning", amt, bank, acct, acctName,
                WStatus.pending⟩] }) := by
      simp [withdraw, hu, if_neg hna, ht, if_neg h1, if_neg h2]
    refine ⟨?_, ?_, ?_⟩
    · simp only [hw]
    · simp only [hw]
      rw [h3]
      rfl
    · simp only [hw]

/-- C5 witness: on day 13, 8 days after Ada's last earning withdrawal, a
1000 withdrawal passes the cooldown, debits her balance to 19000 and stamps
`lastEarningWithdrawal` with the call instant. -/
theorem withdraw_earning_cooldown_witness :
    sevenDaysMs ≤ (1123200000 : Int) - 432000000 ∧
    ((withdraw "u1" "earning" 1000 "GTB" "0123" "Ada A" 1123200000 "w2" stBase).1 =
        WResult.ok ∧
      (findFirst (fun x => x.uid == "u1")
          (withdraw "u1" "earning" 1000 "GTB" "0123" "Ada A" 1123200000 "w2"
            stBase).2.users).map
        (fun x => (x.balance, x.lastEarningWithdrawal)) =
        some (uAda.balance - 1000, some 1123200000) ∧
      (withdraw "u1" "earning" 1000 "GTB" "0123" "Ada A" 1123200000 "w2"
          stBase).2.withdrawals =
        stBase.withdrawals ++
          [⟨"w2", uAda.uid, "earning", 1000, "GTB", "0123", "Ada A",
            WStatus.pending⟩]) :=
  ⟨by decide,
   (withdraw_earning_cooldown "u1" 1000 "GTB" "0123" "Ada A" 1123200000 "w2"
       stBase uAda 432000000 (by decide) (by decide) (by decide)).2.2
     (by decide) (by decide)⟩

/- ---------------- C6 ---------------- -/

theorem tryConsume_invariant (p : PromoR) (h : p.used ≤ p.limit) :
    (tryConsume p).2.used ≤ p.limit ∧ (tryConsume p).2.limit = p.limit := by
  unfold tryConsume
  by_cases hlt : p.used < p.limit
  · rw [if_pos hlt]
    have h1 : p.used + 1 ≤ p.limit := by omega
    exact ⟨h1, rfl⟩
  · rw [if_neg hlt]
    exact ⟨h, rfl⟩

theorem tryConsumeIter_le (n : Nat) (p : PromoR) (h : p.used ≤ p.limit) :
    (tryConsumeIter n p).used ≤ p.limit := by
  induction n generalizing p with
  | zero => exact h
  | succ n ih =>
    have h1 := tryConsume_invariant p h
    have h2 : (tryConsume p).2.used ≤ (tryConsume p).2.limit := by
      rw [h1.2]
      exact h1.1
    have h3 := ih (tryConsume p).2 h2
    rw [h1.2] at h3
    exact h3

/-- C6: the promo counter invariant.  `used` never exceeds `limit` (single
step and arbitrary iteration), a step consumes at most one unit, and at full
capacity (`used = limit`) `tryConsume` changes nothing and reports "not
applied" — and the part_000 deposit callback then still succeeds, leaving the
promo untouched and appending a successful deposit with
`promoApplied = false`. -/
theorem promo_counter_invariant (p : PromoR) (h : p.used ≤ p.limit) :
    ((tryConsume p).2.used ≤ p.limit ∧
      p.used ≤ (tryConsume p).2.used ∧ (tryConsume p).2.used ≤ p.used + 1) ∧
    (∀ n, (tryConsumeIter n p).used ≤ p.limit) ∧
    (p.used = p.limit → tryConsume p = (false, p)) ∧
    (∀ (st : State000) (tid : String) (txref : Option String) (v : VerifyResp)
        (nid ncode ndep : String),
      st.promo.used = st.promo.limit → v.status = "success" →
      (callback000 "successful" tid txref (some v) nid ncode ndep st).1 =
        "success" ∧
      (callback000 "successful" tid txref (some v) nid ncode ndep st).2.promo =
        st.promo ∧
      ∃ dep : Dep000,
        (callback000 "successful" tid txref (some v) nid ncode ndep
            st).2.deposits = st.deposits ++ [dep] ∧
        dep.promoApplied = false ∧ dep.status = DStatus.successful) := by
  refine ⟨?_, fun n => tryConsumeIter_le n p h, ?_, ?_⟩
  · refine ⟨(tryConsume_invariant p h).1, ?_, ?_⟩ <;>
      · unfold tryConsume
        by_cases hlt : p.used < p.limit <;> simp [hlt]
  · intro hcap
    unfold tryConsume
    have : ¬ p.used < p.limit := by omega
    simp [this]
  · intro st tid txref v nid ncode ndep hcap hvs
    have htc : tryConsume st.promo = (false, st.promo) := by
      unfold tryConsume
      have : ¬ st.promo.used < st.promo.limit := by omega
      simp [this]
    cases hfind : findFirst (fun u => u.email == jsToLower v.email) st.users with
    | some u =>
      refine ⟨?_, ?_, ⟨⟨ndep, u.uid, v.amount, tid, txref, DStatus.successful,
        false⟩, ?_, rfl, rfl⟩⟩ <;>
        simp [callback000, hvs, hfind, htc, freshUser]
    | none =>
      refine ⟨?_, ?_, ⟨⟨ndep, nid, v.amount, tid, txref, DStatus.successful,
        false⟩, ?_, rfl, rfl⟩⟩ <;>
        simp [callback000, hvs, hfind, htc, freshUser]

/-- C6 witness: at capacity 5/5 the counter stays at 5 under iteration, and
the deposit callback on a capacity-5/5 state succeeds without consuming. -/
theorem promo_counter_invariant_witness :
    (5 : Int) ≤ 5 ∧
    (tryConsumeIter 3 ⟨5, 5⟩).used ≤ (5 : Int) ∧
    ((callback000 "successful" "tx9" (some "HT-9")
        (some ⟨"success", 5000, "pat@x.y", "Pat"⟩) "nu" "NC" "d9"
        ⟨[freshUser "p1" "pat@x.y" "Pat" "PAT1"], [], ⟨5, 5⟩⟩).1 = "success" ∧
      (callback000 "successful" "tx9" (some "HT-9")
        (some ⟨"success", 5000, "pat@x.y", "Pat"⟩) "nu" "NC" "d9"
        ⟨[freshUser "p1" "pat@x.y" "Pat" "PAT1"], [], ⟨5, 5⟩⟩).2.promo =
        (⟨[freshUser "p1" "pat@x.y" "Pat" "PAT1"], [],
          (⟨5, 5⟩ : PromoR)⟩ : State000).promo ∧
      ∃ dep : Dep000,
        (callback000 "successful" "tx9" (some "HT-9")
          (some ⟨"success", 5000, "pat@x.y", "Pat"⟩) "nu" "NC" "d9"
          ⟨[freshUser "p1" "pat@x.y" "Pat" "PAT1"], [], ⟨5, 5⟩⟩).2.deposits =
          ([] : List Dep000) ++ [dep] ∧
        dep.promoApplied = false ∧ dep.status = DStatus.successful) :=
  ⟨by decide,
   (promo_counter_invariant ⟨5, 5⟩ (by decide)).2.1 3,
   (promo_counter_invariant ⟨5, 5⟩ (by decide)).2.2.2
     ⟨[freshUser "p1" "pat@x.y" "Pat" "PAT1"], [], ⟨5, 5⟩⟩ "tx9" (some "HT-9")
     ⟨"success", 5000, "pat@x.y", "Pat"⟩ "nu" "NC" "d9" (by decide) (by decide)⟩

/- ---------------- C8 ---------------- -/

/-- C8: the admin approve operation fails with not-found (state unchanged)
when no withdrawal has the id; otherwise it flips the (pending) record's
status to approved and changes nothing else — users (hence balances and
referral earnings), ads tracking, the promo counter, every other field of
the record, and all other withdrawal records are untouched. -/
theorem approve_only_status (wid : String) (st : ServerState) :
    (findFirst (fun w => w.wid == wid) st.withdrawals = none →
      approveWithdrawal wid st = (AResult.notFound, st)) ∧
    (∀ w, findFirst (fun x => x.wid == wid) st.withdrawals = some w →
      w.status = WStatus.pending →
      (approveWithdrawal wid st).1 = AResult.ok ∧
      (approveWithdrawal wid st).2.users = st.users ∧
      (approveWithdrawal wid st).2.adsWatched = st.adsWatched ∧
      (approveWithdrawal wid st).2.promo = st.promo ∧
      findFirst (fun x => x.wid == wid) (approveWithdrawal wid st).2.withdrawals =
        some { w with status := WStatus.approved } ∧
      (∀ x ∈ st.withdrawals, (x.wid == wid) = false →
        x ∈ (approveWithdrawal wid st).2.withdrawals)) := by
  constructor
  · intro hnone
    simp [approveWithdrawal, hnone]
  · intro w hw hpend
    have hpw : (w.wid == wid) = true :=
      findFirst_some (fun x => x.wid == wid) st.withdrawals w hw
    have hself :
        findFirst (fun x => x.wid == wid)
          (updateFirst (fun x => x.wid == wid)
            (fun x => { x with status := WStatus.approved }) st.withdrawals) =
          some { w with status := WStatus.approved } :=
      findFirst_updateFirst_self _ _ _ _ hw hpw
    refine ⟨?_, ?_, ?_, ?_, ?_, ?_⟩
    · simp [approveWithdrawal, hw]
    · simp [approveWithdrawal, hw]
    · simp [approveWithdrawal, hw]
    · simp [approveWithdrawal, hw]
    · simp only [approveWithdrawal, hw]
      exact hself
    · intro x hx hqx
      simp only [approveWithdrawal, hw]
      exact mem_updateFirst_of_neg _ _ _ _ hx hqx

/-- C8 witness: approving the pending record w0 succeeds, flips only its
status, and leaves users and the other state components unchanged. -/
theorem approve_only_status_witness :
    (⟨"w0", "u1", "referral", 5000, "GTB", "0123", "Ada A",
      WStatus.pending⟩ : WithdrawalR).status = WStatus.pending ∧
    ((approveWithdrawal "w0" stBase).1 = AResult.ok ∧
      (approveWithdrawal "w0" stBase).2.users = stBase.users ∧
      (approveWithdrawal "w0" stBase).2.adsWatched = stBase.adsWatched ∧
      (approveWithdrawal "w0" stBase).2.promo = stBase.promo ∧
      findFirst (fun x => x.wid == "w0")
          (approveWithdrawal "w0" stBase).2.withdrawals =
        some { (⟨"w0", "u1", "referral", 5000, "GTB", "0123", "Ada A",
                 WStatus.pending⟩ : WithdrawalR) with
               status := WStatus.approved } ∧
      (∀ x ∈ stBase.withdrawals, (x.wid == "w0") = false →
        x ∈ (approveWithdrawal "w0" stBase).2.withdrawals)) :=
  ⟨rfl,
   (approve_only_status "w0" stBase).2
     ⟨"w0", "u1", "referral", 5000, "GTB", "0123", "Ada A", WStatus.pending⟩
     (by decide) rfl⟩

/- ---------------- C9 ---------------- -/

/-- C9: a withdrawal request whose type is neither "referral" nor "earning"
fails with a validation error (invalid amount when `amount ≤ 0`, invalid
type otherwise) and the state is completely unchanged: balances and referral
earnings keep their values and no withdrawal record is enqueued. -/
theorem withdraw_invalid_type (uid wtype : String) (amt : Int)
    (bank acct acctName : String) (now : Int) (wid : String)
    (st : ServerState) (u : UserR)
    (hu : findFirst (fun x => x.uid == uid) st.users = some u)
    (ht1 : (wtype == "referral") = false)
    (ht2 : (wtype == "earning") = false) :
    (withdraw uid wtype amt bank acct acctName now wid st).2 = st ∧
    ((withdraw uid wtype amt bank acct acctName now wid st).1 =
        WResult.invalidAmount ∨
      (withdraw uid wtype amt bank acct acctName now wid st).1 =
        WResult.invalidType) := by
  by_cases ha : amt ≤ 0
  · have hw : withdraw uid wtype amt bank acct acctName now wid st =
        (WResult.invalidAmount, st) := by
      simp [withdraw, hu, if_pos ha]
    simp [hw]
  · have hw : withdraw uid wtype amt bank acct acctName now wid st =
        (WResult.invalidType, st) := by
      simp [withdraw, hu, if_neg ha, ht1, ht2]
    simp [hw]

/-- C9 witness: a "gift" withdrawal by Bob is rejected as invalid type with
the state unchanged. -/
theorem withdraw_invalid_type_witness :
    (withdraw "u2" "gift" 100 "GTB" "0123" "Bob B" 0 "w3" stBase).2 = stBase ∧
    ((withdraw "u2" "gift" 100 "GTB" "0123" "Bob B" 0 "w3" stBase).1 =
        WResult.invalidAmount ∨
      (withdraw "u2" "gift" 100 "GTB" "0123" "Bob B" 0 "w3" stBase).1 =
        WResult.invalidType) :=
  withdraw_invalid_type "u2" "gift" 100 "GTB" "0123" "Bob B" 0 "w3" stBase uBob
    (by decide) (by decide) (by decide)

/- ---------------- C10 ---------------- -/

/-- C10: a signup supplying a referral code that matches no existing user
still succeeds: the users list is extended by exactly one new record with
`referredBy = none`, balance 0 and referral earnings 0, and every existing
user record (in particular every referrals list) is left exactly as it
was. -/
theorem signup_unknown_referral_code
    (name email password rc newId newCode : String) (st : ServerState)
    (hn : (name == "") = false) (he : (email == "") = false)
    (hp : (password == "") = false)
    (hdup : findFirst (fun u => jsToLower u.email == jsToLower email) st.users =
      none)
    (hrc : (rc == "") = false)
    (hmiss : findFirst (fun u => u.referralCode == rc) st.users = none) :
    signup name email password (some rc) newId newCode st =
      (SignupResult.ok,
       { st with users := st.users ++
          [{ uid := newId, name := name, email := jsToLower email,
             password := password, verified := true, balance := 0,
             referralEarnings := 0, referrals := [], referralCode := newCode,
             referredBy := none, packageId := none, subscribedAt := none,
             lastEarningWithdrawal := none }] }) := by
  simp [signup, hn, he, hp, hdup, hrc, hmiss]

/-- C10 witness: Dan signs up with the unknown code ZZZZ: the three existing
users are untouched and Dan is appended with no referrer and zero balances. -/
theorem signup_unknown_referral_code_witness :
    signup "Dan" "dan@x.y" "pw" (some "ZZZZ") "u9" "DAN1" stBase =
      (SignupResult.ok,
       { stBase with users := stBase.users ++
          [{ uid := "u9", name := "Dan", email := jsToLower "dan@x.y",
             password := "pw", verified := true, balance := 0,
             referralEarnings := 0, referrals := [], referralCode := "DAN1",
             referredBy := none, packageId := none, subscribedAt := none,
             lastEarningWithdrawal := none }] }) :=
  signup_unknown_referral_code "Dan" "dan@x.y" "pw" "ZZZZ" "u9" "DAN1" stBase
    (by decide) (by decide) (by decide) (by decide) (by decide) (by decide)

/- ---------------- C7 ---------------- -/

/-- C7: on every successful subscribe — including a re-subscription, since
the handler has no once-only guard — whose `referredBy` code resolves to an
existing user, that referrer's referral earnings grow by exactly
`Math.round(price * 0.10)`; when `referredBy` is null or resolves to no
user, the referral earnings of every user are unchanged. -/
theorem subscribe_referral_commission (uid : String) (pid : Nat) (now : Int)
    (st : ServerState) (u : UserR) (pkg : Package)
    (hu : findFirst (fun x => x.uid == uid) st.users = some u)
    (hp : findFirst (fun p => p.id == pid) PACKAGES = some pkg)
    (hbal : pkg.price ≤ u.balance) :
    (∀ code r, u.referredBy = some code → (code == "") = false →
      findFirst (fun x => x.referralCode == code) st.users = some r →
      (findFirst (fun x => x.referralCode == code)
          (subscribe uid pid now st).2.users).map
        (fun x => x.referralEarnings) =
        some (r.referralEarnings + referralBonus pkg.price)) ∧
    ((u.referredBy = none ∨
      ∃ code, u.referredBy = some code ∧
        findFirst (fun x => x.referralCode == code) st.users = none) →
      (subscribe uid pid now st).2.users.map (fun x => x.referralEarnings) =
        st.users.map (fun x => x.referralEarnings)) := by
  have hnlt : ¬ u.balance < pkg.price := not_lt.mpr hbal
  have hsub : (subscribe uid pid now st).2.users =
      creditReferrer u.referredBy (referralBonus pkg.price)
        (updateFirst (fun x => x.uid == uid)
          (fun x => { x with balance := x.balance - pkg.price,
                             packageId := some pkg.id,
                             subscribedAt := some now }) st.users) := by
    simp [subscribe, hu, hp, if_neg hnlt]
  constructor
  · intro code r hrb hc hr
    have htrans :
        (findFirst (fun x => x.referralCode == code)
          (updateFirst (fun x => x.uid == uid)
            (fun x => { x with balance := x.balance - pkg.price,
                               packageId := some pkg.id,
                               subscribedAt := some now }) st.users)).map
          (fun x => x.referralEarnings) =
        (findFirst (fun x => x.referralCode == code) st.users).map
          (fun x => x.referralEarnings) :=
      findFirst_updateFirst_map _ _ _ _ st.users (fun x => rfl) (fun x => rfl)
    rw [hr] at htrans
    obtain ⟨r1, hr1, hre⟩ := Option.map_eq_some'.mp htrans
    rw [hsub, hrb,
      creditReferrer_resolved code (referralBonus pkg.price) _ r1 hc hr1]
    simp [hre]
  · intro hor
    have hmap :
        (updateFirst (fun x => x.uid == uid)
          (fun x => { x with balance := x.balance - pkg.price,
                             packageId := some pkg.id,
                             subscribedAt := some now }) st.users).map
          (fun x => x.referralEarnings) =
        st.users.map (fun x => x.referralEarnings) :=
      map_updateFirst _ _ _ st.users (fun x => rfl)
    cases hor with
    | inl hrb => rw [hsub, hrb, creditReferrer_none, hmap]
    | inr hex =>
      obtain ⟨code, hrb, hnone⟩ := hex
      have htrans :
          (findFirst (fun x => x.referralCode == code)
            (updateFirst (fun x => x.uid == uid)
              (fun x => { x with balance := x.balance - pkg.price,
                                 packageId := some pkg.id,
                                 subscribedAt := some now }) st.users)).map
            (fun x => x.referralEarnings) =
          (findFirst (fun x => x.referralCode == code) st.users).map
            (fun x => x.referralEarnings) :=
        findFirst_updateFirst_map _ _ _ _ st.users (fun x => rfl) (fun x => rfl)
      rw [hnone] at htrans
      have hnone1 := Option.map_eq_none'.mp htrans
      rw [hsub, hrb,
        creditReferrer_unresolved code (referralBonus pkg.price) _ hnone1, hmap]

/-- C7 witness: Ada (referred by Bob's code BOB1) subscribes to package 1;
Bob's referral earnings grow from 100 by exactly round(5000 * 0.10) = 500. -/
theorem subscribe_referral_commission_witness :
    (5000 : Int) ≤ uAda.balance ∧
    (findFirst (fun x => x.referralCode == "BOB1")
        (subscribe "u1" 1 5 stBase).2.users).map
      (fun x => x.referralEarnings) =
      some (uBob.referralEarnings + referralBonus 5000) :=
  ⟨by decide,
   (subscribe_referral_commission "u1" 1 5 stBase uAda ⟨1, 5000, 500⟩
       (by decide) (by decide) (by decide)).1 "BOB1" uBob rfl (by decide)
     (by decide)⟩

/- ---------------- C2 auxiliary lemmas ---------------- -/

theorem findFirst_mem (p : α → Bool) (l : List α) (x : α)
    (h : findFirst p l = some x) : x ∈ l := by
  induction l with
  | nil => simp [findFirst] at h
  | cons a as ih =>
    by_cases hpa : p a
    · simp only [findFirst, hpa, if_pos] at h
      cases h
      exact List.mem_cons_self _ _
    · simp only [findFirst, hpa, Bool.false_eq_true, if_false] at h
      exact List.mem_cons_of_mem a (ih h)

theorem dailyOf_congr (uid : String) (st st2 : ServerState)
    (h : (findFirst (fun x => x.uid == uid) st2.users).map
        (fun x => x.packageId) =
      (findFirst (fun x => x.uid == uid) st.users).map (fun x => x.packageId)) :
    dailyOf uid st2 = dailyOf uid st := by
  unfold dailyOf findU
  rw [h]

theorem userBalance_congr (uid : String) (st st2 : ServerState)
    (h : (findFirst (fun x => x.uid == uid) st2.users).map (fun x => x.balance) =
      (findFirst (fun x => x.uid == uid) st.users).map (fun x => x.balance)) :
    userBalance uid st2 = userBalance uid st := by
  unfold userBalance findU
  rw [h]

theorem rewardedFlag_of_lookup (uid day : String) (st : ServerState)
    (e : AdsEntry) (h : lookupAds st.adsWatched uid day = some e) :
    rewardedFlag uid day st = e.rewarded := by
  unfold rewardedFlag
  rw [h]
  rfl

theorem dailyOf_nonneg (uid : String) (st : ServerState) :
    0 ≤ dailyOf uid st := by
  unfold dailyOf
  cases h1 : ((findU st uid).map (fun u => u.packageId)).getD none with
  | none => exact le_refl (0 : Int)
  | some pid =>
    dsimp only
    cases h2 : findFirst (fun p => p.id == pid) PACKAGES with
    | none => exact le_refl (0 : Int)
    | some pkg =>
      have hmem : pkg ∈ PACKAGES := findFirst_mem _ _ _ h2
      have hall : ∀ q ∈ PACKAGES, 0 ≤ q.daily := by decide
      exact hall pkg hmem


theorem watchAd_step (uid day : String) (st : ServerState) :
    dailyOf uid (watchAd uid day st).2 = dailyOf uid st ∧
    (rewardedFlag uid day st = true → (watchAd uid day st).2 = st) ∧
    (rewardedFlag uid day st = false →
      (userBalance uid (watchAd uid day st).2 = userBalance uid st ∧
        rewardedFlag uid day (watchAd uid day st).2 = false) ∨
      (userBalance uid (watchAd uid day st).2 =
          userBalance uid st + dailyOf uid st ∧
        rewardedFlag uid day (watchAd uid day st).2 = true)) ∧
    (rewardedFlag uid day st = true → (uid == "") = false →
      ∀ u, findFirst (fun x => x.uid == uid) st.users = some u →
        u.packageId.isSome = true →
        (watchAd uid day st).1 = AdResult.alreadyRewarded) := by
  cases huid : (uid == "") with
  | true =>
    have hw : watchAd uid day st = (AdResult.missingUser, st) := by
      simp [watchAd, huid]
    refine ⟨?_, ?_, ?_, ?_⟩
    · rw [hw]
    · intro _
      rw [hw]
    · intro hf
      exact Or.inl ⟨by rw [hw], by rw [hw]; exact hf⟩
    · intro _ hne
      exact absurd hne (by simp)
  | false =>
    cases hfu : findFirst (fun x => x.uid == uid) st.users with
    | none =>
      have hw : watchAd uid day st = (AdResult.userNotFound, st) := by
        simp [watchAd, huid, hfu]
      refine ⟨?_, ?_, ?_, ?_⟩
      · rw [hw]
      · intro _
        rw [hw]
      · intro hf
        exact Or.inl ⟨by rw [hw], by rw [hw]; exact hf⟩
      · intro _ _ u hu
        exact absurd hu (by simp)
    | some user =>
      have hpu : (user.uid == uid) = true :=
        findFirst_some (fun x => x.uid == uid) st.users user hfu
      cases hpid : user.packageId with
      | none =>
        have hw : watchAd uid day st = (AdResult.noPackage, st) := by
          simp [watchAd, huid, hfu, hpid]
        refine ⟨?_, ?_, ?_, ?_⟩
        · rw [hw]
        · intro _
          rw [hw]
        · intro hf
          exact Or.inl ⟨by rw [hw], by rw [hw]; exact hf⟩
        · intro _ _ u hu hps
          cases hu
          rw [hpid] at hps
          exact absurd hps (by simp)
      | some pid =>
        cases hflag : rewardedFlag uid day st with
        | true =>
          obtain ⟨e, hl, her⟩ :
              ∃ e, lookupAds st.adsWatched uid day = some e ∧
                e.rewarded = true := by
            unfold rewardedFlag at hflag
            cases hl : lookupAds st.adsWatched uid day with
            | none =>
              rw [hl] at hflag
              simp at hflag
            | some e0 =>
              rw [hl] at hflag
              exact ⟨e0, rfl, hflag⟩
          have hens : ensureAds st.adsWatched uid day = st.adsWatched :=
            ensureAds_of_isSome _ _ _ (by rw [hl]; rfl)
          have hget : (lookupAds st.adsWatched uid day).getD ⟨0, false⟩ = e := by
            rw [hl]
            rfl
          have hw : watchAd uid day st = (AdResult.alreadyRewarded, st) := by
            simp [watchAd, huid, hfu, hpid, hget, her, hens]
          refine ⟨?_, ?_, ?_, ?_⟩
          · rw [hw]
          · intro _
            rw [hw]
          · intro hf
            exact absurd hf (by simp)
          · intro _ _ u hu hps
            rw [hw]
        | false =>
          have hder :
              ((lookupAds st.adsWatched uid day).getD ⟨0, false⟩).rewarded =
                false := by
            unfold rewardedFlag at hflag
            cases hl : lookupAds st.adsWatched uid day with
            | none => rfl
            | some e0 =>
              rw [hl] at hflag
              exact hflag
          have hlk2 : lookupAds (ensureAds st.adsWatched uid day) uid day =
              some ((lookupAds st.adsWatched uid day).getD ⟨0, false⟩) :=
            lookupAds_ensureAds _ _ _
          have hsome2 :
              (lookupAds (ensureAds st.adsWatched uid day) uid day).isSome =
                true := by
            rw [hlk2]
            rfl
          by_cases hcnt :
              5 ≤ ((lookupAds st.adsWatched uid day).getD ⟨0, false⟩).count
          · have hwu : (watchAd uid day st).2.users = st.users := by
              simp [watchAd, huid, hfu, hpid, hder, hcnt]
            have hwa : (watchAd uid day st).2.adsWatched =
                ensureAds st.adsWatched uid day := by
              simp [watchAd, huid, hfu, hpid, hder, hcnt]
            refine ⟨?_, ?_, ?_, ?_⟩
            · exact dailyOf_congr uid st _ (by rw [hwu])
            · intro htr
              exact absurd htr (by simp)
            · intro _
              refine Or.inl ⟨userBalance_congr uid st _ (by rw [hwu]), ?_⟩
              unfold rewardedFlag
              rw [hwa, hlk2]
              exact hder
            · intro htr
              exact absurd htr (by simp)
          · by_cases hn5 :
                (((lookupAds st.adsWatched uid day).getD ⟨0, false⟩).count + 1
                  == 5) = true
            · cases hpkg : findFirst (fun p => p.id == pid) PACKAGES with
              | some pkg =>
                have hwu : (watchAd uid day st).2.users =
                    updateFirst (fun x => x.uid == uid)
                      (fun x => { x with balance := x.balance + pkg.daily })
                      st.users := by
                  simp [watchAd, huid, hfu, hpid, hder, hcnt, hn5, hpkg]
                have hwa : (watchAd uid day st).2.adsWatched =
                    setAds (ensureAds st.adsWatched uid day) uid day
                      ⟨((lookupAds st.adsWatched uid day).getD
                        ⟨0, false⟩).count + 1, true⟩ := by
                  simp [watchAd, huid, hfu, hpid, hder, hcnt, hn5, hpkg]
                have hb : userBalance uid st = user.balance := by
                  unfold userBalance findU
                  rw [hfu]
                  rfl
                have hd : dailyOf uid st = pkg.daily := by
                  unfold dailyOf findU
                  rw [hfu]
                  dsimp only [Option.map_some', Option.getD_some]
                  rw [hpid]
                  dsimp only
                  rw [hpkg]
                refine ⟨?_, ?_, ?_, ?_⟩
                · exact dailyOf_congr uid st _ (by
                    rw [hwu]
                    exact findFirst_updateFirst_map _ _ _ _ st.users
                      (fun x => rfl) (fun x => rfl))
                · intro htr
                  exact absurd htr (by simp)
                · intro _
                  refine Or.inr ⟨?_, ?_⟩
                  · have hl2 : userBalance uid (watchAd uid day st).2 =
                        user.balance + pkg.daily := by
                      unfold userBalance findU
                      rw [hwu, findFirst_updateFirst_self _ _ _ _ hfu hpu]
                      rfl
                    rw [hl2, hb, hd]
                  · unfold rewardedFlag
                    rw [hwa, lookupAds_setAds _ _ _ _ hsome2]
                    rfl
                · intro htr
                  exact absurd htr (by simp)
              | none =>
                have hwu : (watchAd uid day st).2.users = st.users := by
                  simp [watchAd, huid, hfu, hpid, hder, hcnt, hn5, hpkg]
                have hwa : (watchAd uid day st).2.adsWatched =
                    setAds (ensureAds st.adsWatched uid day) uid day
                      ⟨((lookupAds st.adsWatched uid day).getD
                        ⟨0, false⟩).count + 1, false⟩ := by
                  simp [watchAd, huid, hfu, hpid, hder, hcnt, hn5, hpkg]
                refine ⟨?_, ?_, ?_, ?_⟩
                · exact dailyOf_congr uid st _ (by rw [hwu])
                · intro htr
                  exact absurd htr (by simp)
                · intro _
                  refine Or.inl ⟨userBalance_congr uid st _ (by rw [hwu]), ?_⟩
                  unfold rewardedFlag
                  rw [hwa, lookupAds_setAds _ _ _ _ hsome2]
                  rfl
                · intro htr
                  exact absurd htr (by simp)
            · have hwu : (watchAd uid day st).2.users = st.users := by
                simp [watchAd, huid, hfu, hpid, hder, hcnt, hn5]
              have hwa : (watchAd uid day st).2.adsWatched =
                  setAds (ensureAds st.adsWatched uid day) uid day
                    ⟨((lookupAds st.adsWatched uid day).getD
                      ⟨0, false⟩).count + 1, false⟩ := by
                simp [watchAd, huid, hfu, hpid, hder, hcnt, hn5]
              refine ⟨?_, ?_, ?_, ?_⟩
              · exact dailyOf_congr uid st _ (by rw [hwu])
              · intro htr
                exact absurd htr (by simp)
              · intro _
                refine Or.inl ⟨userBalance_congr uid st _ (by rw [hwu]), ?_⟩
                unfold rewardedFlag
                rw [hwa, lookupAds_setAds _ _ _ _ hsome2]
                rfl
              · intro htr
                exact absurd htr (by simp)

theorem watchAdIter_frozen (uid day : String) (n : Nat) (st : ServerState)
    (h : rewardedFlag uid day st = true) : watchAdIter uid day n st = st := by
  induction n generalizing st with
  | zero => rfl
  | succ n ih =>
    have h2 := (watchAd_step uid day st).2.1 h
    simp only [watchAdIter]
    rw [h2]
    exact ih st h

theorem watchAdIter_balance_bound (uid day : String) (n : Nat)
    (st : ServerState) :
    userBalance uid (watchAdIter uid day n st) ≤
      userBalance uid st +
        (if rewardedFlag uid day st = true then 0 else dailyOf uid st) := by
  induction n generalizing st with
  | zero =>
    cases hflag : rewardedFlag uid day st with
    | true => simp [watchAdIter]
    | false =>
      rw [if_neg (by simp : ¬ (false = true))]
      exact le_add_of_nonneg_right (dailyOf_nonneg uid st)
  | succ n ih =>
    cases hflag : rewardedFlag uid day st with
    | true =>
      have hfz := watchAdIter_frozen uid day (n + 1) st hflag
      rw [hfz]
      simp
    | false =>
      have hdaily := (watchAd_step uid day st).1
      have hstep := (watchAd_step uid day st).2.2.1 hflag
      simp only [watchAdIter]
      cases hstep with
      | inl hcase =>
        obtain ⟨hbal, hflag2⟩ := hcase
        have h3 := ih (watchAd uid day st).2
        rw [hbal, hflag2, hdaily] at h3
        exact h3
      | inr hcase =>
        obtain ⟨hbal, hflag2⟩ := hcase
        have hfz := watchAdIter_frozen uid day n (watchAd uid day st).2 hflag2
        rw [hfz, hbal]
        simp

/-- C2: for a fixed user and calendar day, no sequence of watch-ad calls
credits the package daily reward more than once.  Once the (user, day)
entry's `rewarded` flag is set, any number of further calls leaves the state
literally unchanged and a call by an existing subscribed user returns the
already-rewarded result; and from any state, the user's balance after any
number of calls exceeds the starting balance by at most one daily reward
(by nothing at all once the flag is already set). -/
theorem watch_ad_daily_reward_once (uid day : String) (st : ServerState) :
    (rewardedFlag uid day st = true → ∀ n, watchAdIter uid day n st = st) ∧
    (rewardedFlag uid day st = true → (uid == "") = false →
      ∀ u, findFirst (fun x => x.uid == uid) st.users = some u →
        u.packageId.isSome = true →
        (watchAd uid day st).1 = AdResult.alreadyRewarded) ∧
    (∀ n, userBalance uid (watchAdIter uid day n st) ≤
      userBalance uid st +
        (if rewardedFlag uid day st = true then 0 else dailyOf uid st)) :=
  ⟨fun h n => watchAdIter_frozen uid day n st h,
   (watchAd_step uid day st).2.2.2,
   fun n => watchAdIter_balance_bound uid day n st⟩

/-- C2 witness: Ada is already rewarded for 2026-02-03, so three further
calls change nothing, one further call answers already-rewarded, and her
balance respects the at-most-one-reward bound. -/
theorem watch_ad_daily_reward_once_witness :
    watchAdIter "u1" "2026-02-03" 3 stBase = stBase ∧
    (watchAd "u1" "2026-02-03" stBase).1 = AdResult.alreadyRewarded ∧
    userBalance "u1" (watchAdIter "u1" "2026-02-03" 3 stBase) ≤
      userBalance "u1" stBase +
        (if rewardedFlag "u1" "2026-02-03" stBase = true then 0
         else dailyOf "u1" stBase) :=
  ⟨(watch_ad_daily_reward_once "u1" "2026-02-03" stBase).1 (by decide) 3,
   (watch_ad_daily_reward_once "u1" "2026-02-03" stBase).2.1 (by decide)
     (by decide) uAda (by decide) (by decide),
   (watch_ad_daily_reward_once "u1" "2026-02-03" stBase).2.2 3⟩

/- ---------------- C1 ---------------- -/

/-- A user known to the payment callback by email, with no referrer. -/
def uPat : UserR := freshUser "p1" "pat@x.y" "Pat" "PAT1"

/-- part_000 state before the gateway confirmation: Pat has balance 0 and no
deposit record exists. -/
def st000dup : State000 := ⟨[uPat], [], ⟨300, 0⟩⟩

/-- The gateway verification data delivered (identically) on both calls. -/
def vDup : VerifyResp := ⟨"success", 5000, "pat@x.y", "Pat"⟩

/-- State after the first delivery of the confirmation to part_000. -/
def dup1 : State000 :=
  (callback000 "successful" "tx1" (some "HT-1") (some vDup) "nu1" "NC1" "d1"
    st000dup).2

/-- State after the second, identical delivery to part_000. -/
def dup2 : State000 :=
  (callback000 "successful" "tx1" (some "HT-1") (some vDup) "nu2" "NC2" "d2"
    dup1).2

/-- The same confirmation as seen by the server.js reconciliation. -/
def tdDup : TxData := ⟨"successful", 5000, "HT-1"⟩

/-- server.js state before the confirmation: Pat has balance 0 and the
deposit-init handler has stored a pending deposit for txRef HT-1. -/
def stSrv : StateS := ⟨[uPat], [⟨"p1", 5000, "HT-1", DStatus.pending, none⟩]⟩

/-- State after the first delivery to server.js. -/
def srv1 : StateS :=
  (callbackS (some "tx1") (some "HT-1") "successful" (some tdDup) stSrv).2

/-- C1: delivering the same successful gateway confirmation (txRef HT-1,
amount 5000) twice to the part_000 payment callback credits Pat twice
(balance 10000) and leaves two deposit records in status successful — the
claimed exactly-one-credit idempotency fails there, because that handler
never looks up an existing deposit by txRef.  The server.js reconciliation
at the same input behaves as the claim (and the spec) require: the second
delivery returns success, changes nothing, and exactly one credit and one
successful record remain. -/
theorem callback_duplicate_delivery_double_credits :
    (findFirst (fun u => u.uid == "p1") dup2.users).map (fun u => u.balance) =
      some 10000 ∧
    (dup2.deposits.filter (fun d => d.status == DStatus.successful)).length =
      2 ∧
    (callbackS (some "tx1") (some "HT-1") "successful" (some tdDup) srv1).1 =
      COut.success ∧
    (callbackS (some "tx1") (some "HT-1") "successful" (some tdDup) srv1).2 =
      srv1 ∧
    (findFirst (fun u => u.uid == "p1") srv1.users).map (fun u => u.balance) =
      some 5000 ∧
    (srv1.deposits.filter (fun d => d.status == DStatus.successful)).length =
      1 := by
  refine ⟨?_, ?_, ?_, ?_, ?_, ?_⟩ <;> decide
